import Mathlib

/-!
Verification development for the ElevenLabs websocket text-to-speech client.

The program (`main.go`) is a console driver: per segment it opens one websocket
connection, forwards typed lines as JSON messages, flushes on `done`, collects
base64 audio chunks from inbound messages (`receiveAudio`), writes the bytes to
a file and plays them.

The embedding is shallow.  External effects are replaced by explicit inputs
(`Env`: outcome of every dial, send, read, write and player run) and explicit
outputs (the list of `Event`s the driver performs, in order).
-/

namespace ElevenWss

/-! ## Data model -/

/-- Raw bytes (`[]byte`); every element produced by the decoder is below 256. -/
abbrev Bytes := List Nat

/-- A `float64` flag value.  The driver only copies these values into the init
message, so a value is represented by its 64-bit pattern. -/
structure F64 where
  bits : Nat
  deriving DecidableEq, Repr

/-- A decoded JSON value, as `json.Unmarshal` stores it in an empty interface:
nil, a bool, a float64, a string, a slice of values or a map from strings to
values. -/
inductive JVal where
  | null : JVal
  | bool (b : Bool) : JVal
  | num (x : F64) : JVal
  | str (s : String) : JVal
  | arr (xs : List JVal) : JVal
  | obj (kvs : List (String × JVal)) : JVal

/-- A decoded JSON object, the map that `receiveAudio` unmarshals into;
`List.lookup` is the map index expression `resp[key]`. -/
abbrev JObject := List (String × JVal)

/-- Go's interface comparison `v != false`: true for every dynamic value except
the boolean `false` (values of another dynamic type compare unequal). -/
def JVal.neFalse : JVal → Bool
  | .bool false => false
  | _ => true

/-- The `voice_settings` object of the init message. -/
structure VoiceSettings where
  stability : F64
  similarity_boost : F64
  speed : F64
  deriving DecidableEq, Repr

/-- An outbound JSON object.  The program builds only objects with the keys
`text`, `voice_settings` and `flush`; an absent key is `none`. -/
structure OutMsg where
  text : String
  voice_settings : Option VoiceSettings
  flush : Option Bool
  deriving DecidableEq, Repr

/-! ## base64.StdEncoding.DecodeString -/

/-- Value of a character in the standard base64 alphabet (`decodeMap`). -/
def b64Value (c : Char) : Option Nat :=
  let n := c.toNat
  if 65 ≤ n ∧ n ≤ 90 then some (n - 65)
  else if 97 ≤ n ∧ n ≤ 122 then some (n - 97 + 26)
  else if 48 ≤ n ∧ n ≤ 57 then some (n - 48 + 52)
  else if n = 43 then some 62
  else if n = 47 then some 63
  else none

/-- Line feed and carriage return are skipped by the decoder. -/
def isNewline (c : Char) : Bool := c.toNat = 10 || c.toNat = 13

/-- The padding character `=`. -/
def isPad (c : Char) : Bool := c.toNat = 61

/-- Drop leading newline characters. -/
def skipNewlines : List Char → List Char
  | [] => []
  | c :: cs => if isNewline c then skipNewlines cs else c :: cs

/-- The first `k` bytes of the 24-bit group assembled from a quantum of 6-bit
values (missing values count as zero). -/
def quantumBytes (q : List Nat) (k : Nat) : Bytes :=
  let val := q.getD 0 0 * 262144 + q.getD 1 0 * 4096 + q.getD 2 0 * 64 + q.getD 3 0
  [val / 65536 % 256, val / 256 % 256, val % 256].take k

/-- The decoding loop: `q` is the current partial quantum, `out` the bytes
decoded so far; `none` is a `CorruptInputError`. -/
def decodeLoop : List Char → List Nat → Bytes → Option Bytes
  | [], q, out => if q.length = 0 then some out else none
  | c :: cs, q, out =>
    match b64Value c with
    | some v =>
      if q.length = 3 then decodeLoop cs [] (out ++ quantumBytes (q ++ [v]) 3)
      else decodeLoop cs (q ++ [v]) out
    | none =>
      if isNewline c then decodeLoop cs q out
      else if isPad c then
        if q.length = 2 then
          match skipNewlines cs with
          | d :: r =>
            if isPad d ∧ skipNewlines r = [] then some (out ++ quantumBytes q 1) else none
          | [] => none
        else if q.length = 3 then
          if skipNewlines cs = [] then some (out ++ quantumBytes q 2) else none
        else none
      else none

/-- Model of `base64.StdEncoding.DecodeString` (standard alphabet, padded, not
strict): `none` when the library returns an error. -/
def DecodeString (s : String) : Option Bytes := decodeLoop s.toList [] []

/-! ## receiveAudio -/

/-- The constant `websocket.CloseNormalClosure`. -/
def CloseNormalClosure : Nat := 1000

/-- The error returned by `conn.ReadMessage`, as far as `receiveAudio`
inspects it. -/
inductive ReadErr where
  | netError (timeout : Bool)
  | closeError (code : Nat)
  | otherError
  deriving DecidableEq, Repr

/-- One result of `conn.ReadMessage` together with the result of
`json.Unmarshal` on the payload (`none`: Unmarshal returned an error). -/
inductive ReadResult where
  | failed (err : ReadErr)
  | message (resp : Option JObject)

/-- Outcome of one iteration of the receive loop. -/
inductive Iter where
  | next (audioData : Bytes)
  | stop (audioData : Bytes)
  | fatal
  deriving DecidableEq, Repr

/-- Outcome of `receiveAudio` on a finite sequence of read results: it returned
the buffer, it ended the process with `log.Fatalf`, or the sequence ran out
while the loop was still reading. -/
inductive RecvResult where
  | returned (audioData : Bytes)
  | fatal
  | blocked (audioData : Bytes)
  deriving DecidableEq, Repr

/-- Lines 190-198: decode and append the `audio` field when it is a non-empty
string; `none` is the fatal decode error. -/
def appendAudio (audioData : Bytes) (resp : JObject) : Option Bytes :=
  match resp.lookup "audio" with
  | some (.str enc) =>
    if enc ≠ "" then
      match DecodeString enc with
      | some chunk => some (audioData ++ chunk)
      | none => none
    else some audioData
  | _ => some audioData

/-- Line 200: `fb, ok := resp["final"].(bool); ok && fb`. -/
def finalBranch1 (resp : JObject) : Bool :=
  match resp.lookup "final" with
  | some (.bool fb) => fb
  | _ => false

/-- Line 204: `_, hasObj := resp["final"]; hasObj && resp["final"] != false`. -/
def finalBranch2 (resp : JObject) : Bool :=
  match resp.lookup "final" with
  | some v => v.neFalse
  | none => false

/-- One iteration of the loop body of `receiveAudio` (lines 170-207). -/
def recvIter (audioData : Bytes) : ReadResult → Iter
  | .failed (.netError true) => .stop audioData
  | .failed (.netError false) => .fatal
  | .failed (.closeError code) =>
    if code = CloseNormalClosure then .stop audioData else .fatal
  | .failed .otherError => .fatal
  | .message none => .next audioData
  | .message (some resp) =>
    match appendAudio audioData resp with
    | none => .fatal
    | some buffered =>
      if finalBranch1 resp then .stop buffered
      else if finalBranch2 resp then .stop buffered
      else .next buffered

/-- The receive loop started with buffer `audioData`. -/
def recvLoop (audioData : Bytes) : List ReadResult → RecvResult
  | [] => .blocked audioData
  | r :: rs =>
    match recvIter audioData r with
    | .next buffered => recvLoop buffered rs
    | .stop buffered => .returned buffered
    | .fatal => .fatal

/-- The function `receiveAudio`: the loop started with the empty buffer. -/
def receiveAudio (reads : List ReadResult) : RecvResult := recvLoop [] reads

/-- The loop body with the first branch of the end-of-stream test removed. -/
def recvIterSecondOnly (audioData : Bytes) : ReadResult → Iter
  | .failed (.netError true) => .stop audioData
  | .failed (.netError false) => .fatal
  | .failed (.closeError code) =>
    if code = CloseNormalClosure then .stop audioData else .fatal
  | .failed .otherError => .fatal
  | .message none => .next audioData
  | .message (some resp) =>
    match appendAudio audioData resp with
    | none => .fatal
    | some buffered =>
      if finalBranch2 resp then .stop buffered else .next buffered

/-- The receive loop built from `recvIterSecondOnly`. -/
def recvLoopSecondOnly (audioData : Bytes) : List ReadResult → RecvResult
  | [] => .blocked audioData
  | r :: rs =>
    match recvIterSecondOnly audioData r with
    | .next buffered => recvLoopSecondOnly buffered rs
    | .stop buffered => .returned buffered
    | .fatal => .fatal

/-! ## The driver (`main`) -/

/-- Everything the driver reads from outside: the flag values and the outcome
of every external operation.  `dialOk seg`: the dial for segment `seg`
succeeds; `sendOk seg k`: the `k`-th `WriteJSON` of the driver on the
connection of segment `seg` succeeds; `inbound seg`: the read results on that
connection; `writeOk seg`, `playOk seg`: writing the file and running the
player succeed. -/
structure Env where
  apiKey : String
  voiceID : String
  stability : F64
  similarity : F64
  speed : F64
  dialOk : Nat → Bool
  sendOk : Nat → Nat → Bool
  inbound : Nat → List ReadResult
  writeOk : Nat → Bool
  playOk : Nat → Bool

/-- The observable actions of the driver.  Segments are numbered from 0 and
each action names the segment whose connection it concerns. -/
inductive Event where
  /-- The call `flag.Usage()`. -/
  | usage
  /-- The call `dialWS` returned a connection (`ok`) or ended in `log.Fatalf`. -/
  | dial (seg : Nat) (ok : Bool)
  /-- The ticker was created and `go keepAlive(conn, ticker, doneKA)` started. -/
  | startKeepAlive (seg : Nat)
  /-- The call `conn.WriteJSON(m)` and whether it returned without error. -/
  | send (seg : Nat) (m : OutMsg) (ok : Bool)
  /-- The calls `ticker.Stop()` and `close(doneKA)`. -/
  | stopKeepAlive (seg : Nat)
  /-- The call `receiveAudio(conn)` and its outcome. -/
  | recv (seg : Nat) (out : RecvResult)
  /-- The call `conn.Close()`. -/
  | close (seg : Nat)
  /-- The call `scanner.Scan()` returned false: the console input ended, or
  its next line does not fit the buffer of the scanner. -/
  | inputClosed (seg : Nat)
  /-- The call `ioutil.WriteFile` with the bytes written and its success. -/
  | writeFile (seg : Nat) (audioData : Bytes) (ok : Bool)
  /-- The call `cmd.Run()` of the player and its success. -/
  | play (seg : Nat) (ok : Bool)
  /-- The process ended with this status (0: `return`, 1: `os.Exit(1)`). -/
  | exit (status : Nat)
  deriving DecidableEq, Repr

/-- The init message of lines 85-92. -/
def initMsg (env : Env) : OutMsg :=
  ⟨" ", some ⟨env.stability, env.similarity, env.speed⟩, none⟩

/-- The text message of line 102. -/
def textMsg (line : String) : OutMsg := ⟨line, none, none⟩

/-- The flush message of line 69. -/
def flushMsg : OutMsg := ⟨"", none, some true⟩

/-- Lines 116-131: write the file, run the player, then go on with `next`, the
actions of the following segments. -/
def writeAndPlay (env : Env) (seg : Nat) (audioData : Bytes) (next : List Event) :
    List Event :=
  if env.writeOk seg then
    .writeFile seg audioData true ::
      (if env.playOk seg then .play seg true :: next else [.play seg false, .exit 1])
  else [.writeFile seg audioData false, .exit 1]

/-- Lines 113-131: receive, close the connection, write and play. -/
def receivePhase (env : Env) (seg : Nat) (next : List Event) : List Event :=
  match receiveAudio (env.inbound seg) with
  | .returned audioData =>
    .recv seg (.returned audioData) :: .close seg :: writeAndPlay env seg audioData next
  | .fatal => [.recv seg .fatal, .exit 1]
  | .blocked audioData => [.recv seg (.blocked audioData)]

/-- Line 42: dial for segment `seg`, then perform `body`. -/
def openSegment (env : Env) (seg : Nat) (body : List Event) : List Event :=
  if env.dialOk seg then .dial seg true :: body else [.dial seg false, .exit 1]

/-- The constant `bufio.MaxScanTokenSize` (64 * 1024), the buffer size of the
scanner that `bufio.NewScanner` returns. -/
def MaxScanTokenSize : Nat := 65536

/-- The inner loop of `main` (lines 50-110) for segment `seg`, continued by the
rest of the outer loop.  `first` and `ticker` are the local variables (`ticker`
is true when the pointer is not nil), `n` counts the sends made so far on this
connection, and the list holds the console lines still to be read, each
without its end-of-line marker.  `scanner.Scan()` returns false when no line is
left and also when the next line has `MaxScanTokenSize` bytes or more; the
driver never looks at `scanner.Err()`, so both end the process the same way. -/
def sendLoop (env : Env) (seg : Nat) : Bool → Bool → Nat → List String → List Event
  | _, _, _, [] => [.inputClosed seg, .close seg, .exit 0]
  | first, ticker, n, line :: rest =>
    if MaxScanTokenSize ≤ line.utf8ByteSize then [.inputClosed seg, .close seg, .exit 0]
    else if line = "" then sendLoop env seg first ticker n rest
    else if line = "exit" then [.close seg, .exit 0]
    else if line = "done" then
      if env.sendOk seg n then
        .send seg flushMsg true ::
          ((if ticker then [.stopKeepAlive seg] else []) ++
            receivePhase env seg
              (openSegment env (seg + 1) (sendLoop env (seg + 1) true false 0 rest)))
      else [.send seg flushMsg false, .exit 1]
    else if first then
      .startKeepAlive seg ::
        (if env.sendOk seg n then
          .send seg (initMsg env) true ::
            (if env.sendOk seg (n + 1) then
              .send seg (textMsg line) true :: sendLoop env seg false true (n + 2) rest
            else [.send seg (textMsg line) false, .exit 1])
        else [.send seg (initMsg env) false, .exit 1])
    else
      if env.sendOk seg n then
        .send seg (textMsg line) true :: sendLoop env seg first ticker (n + 1) rest
      else [.send seg (textMsg line) false, .exit 1]

/-- The function `main` run on the console lines `lines`. -/
def main (env : Env) (lines : List String) : List Event :=
  if env.apiKey = "" ∨ env.voiceID = "" then [.usage, .exit 1]
  else openSegment env 0 (sendLoop env 0 true false 0 lines)

/-- An environment in which every external operation succeeds and the service
answers each segment with one audio chunk marked final. -/
def okEnv : Env :=
  ⟨"key", "voice", ⟨1⟩, ⟨2⟩, ⟨3⟩, fun _ => true, fun _ _ => true,
    fun _ => [.message (some [("audio", .str "aGk="), ("final", .bool true)])],
    fun _ => true, fun _ => true⟩

/-! ## Specification-side notions for the receive loop -/

/-- The audio field of an inbound read result, in the words of the spec: the
message is parseable and its `audio` field is present and a non-empty string. -/
def audioField : ReadResult → Option String
  | .message (some resp) =>
    match resp.lookup "audio" with
    | some (.str enc) => if enc = "" then none else some enc
    | _ => none
  | _ => none

/-- The final indicator of a decoded object is set: the key `final` is present
and its value is not the boolean `false`. -/
def FinalSet (resp : JObject) : Prop :=
  ∃ v, resp.lookup "final" = some v ∧ v ≠ JVal.bool false

/-- Boolean form of `FinalSet`. -/
def finalSet (resp : JObject) : Bool :=
  match resp.lookup "final" with
  | some (.bool false) => false
  | some _ => true
  | none => false

/-- A read result that ends the stream: a read timeout, a normal closure
(code 1000), or a parseable message whose final indicator is set. -/
def endsStream : ReadResult → Bool
  | .failed (.netError timeout) => timeout
  | .failed (.closeError code) => code = 1000
  | .failed .otherError => false
  | .message none => false
  | .message (some resp) => finalSet resp

/-- A read result that is fatal: a failed read that is neither a timeout nor a
normal closure, or a parseable message whose `audio` field is a non-empty
string that is not valid base64. -/
def fatalRead : ReadResult → Bool
  | .failed (.netError timeout) => !timeout
  | .failed (.closeError code) => code ≠ 1000
  | .failed .otherError => true
  | .message none => false
  | .message (some resp) =>
    match resp.lookup "audio" with
    | some (.str enc) => enc ≠ "" && (DecodeString enc).isNone
    | _ => false

/-- The read results up to and including the first one that ends the stream. -/
def throughFirstEnd : List ReadResult → List ReadResult
  | [] => []
  | r :: rs => if endsStream r then [r] else r :: throughFirstEnd rs

/-- The encoded audio strings carried by the read results up to and including
the first one that ends the stream, in arrival order. -/
def audioStrings (reads : List ReadResult) : List String :=
  (throughFirstEnd reads).filterMap audioField

/-! ## Trace properties -/

/-- The segment an action concerns, if any. -/
def segOf : Event → Option Nat
  | .usage => none
  | .dial seg _ => some seg
  | .startKeepAlive seg => some seg
  | .send seg _ _ => some seg
  | .stopKeepAlive seg => some seg
  | .recv seg _ => some seg
  | .close seg => some seg
  | .inputClosed seg => some seg
  | .writeFile seg _ _ => some seg
  | .play seg _ => some seg
  | .exit _ => none

/-- Effect of one action on the list of open connections: a successful dial
opens the connection of its segment, a close releases it. -/
def connStep (conns : List Nat) : Event → List Nat
  | .dial seg true => seg :: conns
  | .close seg => conns.erase seg
  | _ => conns

/-- The connections that are open after the actions `hist`. -/
def openConns (hist : List Event) : List Nat := hist.foldl connStep []

/-- Segment `s` is still in its sending phase after the actions `hist`: no
flush was sent on it, the receive loop was not entered, the file was not
written and the player was not run for it. -/
def Sending (s : Nat) (hist : List Event) : Prop :=
  (∀ ok, .send s flushMsg ok ∉ hist) ∧ (∀ out, .recv s out ∉ hist) ∧
  (∀ audioData ok, .writeFile s audioData ok ∉ hist) ∧ (∀ ok, .play s ok ∉ hist)

/-- `Holds R hist t`: for every action `e` of the trace `t`, with `pre` the
actions of `t` before it and `post` those after it, `R (hist ++ pre) e post`. -/
def Holds (R : List Event → Event → List Event → Prop) (hist t : List Event) : Prop :=
  ∀ pre e post, t = pre ++ e :: post → R (hist ++ pre) e post

/-- The discipline every action `e` of the driver obeys, given the actions
`hist` performed before it and the actions `post` that follow it. -/
def Safe (hist : List Event) (e : Event) (post : List Event) : Prop :=
  (openConns (hist ++ [e])).length ≤ 1 ∧
  match e with
  | .send s m ok =>
    openConns hist = [s] ∧ .close s ∉ hist ∧ Sending s hist ∧
    (ok = false → post = [.exit 1]) ∧
    (m = flushMsg → ok = true → .startKeepAlive s ∈ hist →
      .stopKeepAlive s ∉ hist ∧ ∃ out post', post = .stopKeepAlive s :: .recv s out :: post')
  | .inputClosed s => Sending s hist ∧ post = [.close s, .exit 0]
  | .close s =>
    openConns hist = [s] ∧ .close s ∉ hist ∧
    ((∃ out, .recv s out ∈ hist) → .startKeepAlive s ∈ hist → .stopKeepAlive s ∈ hist)
  | .startKeepAlive s =>
    openConns hist = [s] ∧ .close s ∉ hist ∧
    ∀ s', .startKeepAlive s' ∈ hist → .stopKeepAlive s' ∈ hist
  | .dial s _ => (∀ ok, .dial s ok ∉ hist) ∧ openConns hist = []
  | .recv s _ => openConns hist = [s] ∧ .close s ∉ hist
  | .writeFile s _ _ => .close s ∈ hist ∧ openConns hist = []
  | .play s _ => .close s ∈ hist ∧ openConns hist = []
  | _ => True

/-- What the actions `hist` performed so far look like while the driver is in
the inner loop of segment `seg` with local variables `first` and `ticker`. -/
def Inv (hist : List Event) (seg : Nat) (first ticker : Bool) : Prop :=
  first = !ticker ∧
  (ticker = true ↔ .startKeepAlive seg ∈ hist) ∧
  openConns hist = [seg] ∧
  (∀ x ∈ hist, ∀ s, segOf x = some s → s ≤ seg) ∧
  (∀ x ∈ hist, segOf x = some seg →
    x = .dial seg true ∨ x = .startKeepAlive seg ∨ ∃ m, x = .send seg m true ∧ m.flush = none) ∧
  (∀ s, s < seg → .startKeepAlive s ∈ hist → .stopKeepAlive s ∈ hist)

/-- The messages of the send actions on the connection of segment `seg`, in
the order of the trace. -/
def sentOn (seg : Nat) : List Event → List OutMsg
  | [] => []
  | .send s m _ :: t => if s = seg then m :: sentOn seg t else sentOn seg t
  | _ :: t => sentOn seg t

/-- The message sequence the spec prescribes for a segment in which the lines
`ls` were entered before `done`: nothing for an empty line; if there is a
non-empty line, Init followed by one Text per non-empty line in entry order;
Flush last. -/
def specMessages (env : Env) (ls : List String) : List OutMsg :=
  let texts := ls.filter (fun line => line ≠ "")
  (if texts = [] then [] else initMsg env :: texts.map textMsg) ++ [flushMsg]

/-- A console line of exactly `MaxScanTokenSize` bytes: the letter `a` repeated
65536 times. -/
def longLine : String := String.mk (List.replicate 65536 (Char.ofNat 97))

/-- An environment like `okEnv` in which the second send on every connection
fails. -/
def failEnv : Env :=
  ⟨"key", "voice", ⟨1⟩, ⟨2⟩, ⟨3⟩, fun _ => true, fun _ k => decide (k ≠ 1),
    fun _ => [], fun _ => true, fun _ => true⟩


/-! ## Lemmas on the receive loop -/

theorem appendAudio_spec (audioData buffered : Bytes) (resp : JObject)
    (h : appendAudio audioData resp = some buffered) :
    (audioField (.message (some resp)) = none ∧ buffered = audioData) ∨
    (∃ enc chunk, audioField (.message (some resp)) = some enc ∧
      DecodeString enc = some chunk ∧ buffered = audioData ++ chunk) := by
  unfold appendAudio at h
  unfold audioField
  cases hl : resp.lookup "audio" with
  | none => simp only [hl] at h ⊢; simp_all
  | some v =>
    simp only [hl] at h ⊢
    cases v with
    | str enc =>
      by_cases he : enc = ""
      · simp_all
      · cases hd : DecodeString enc with
        | none => simp_all
        | some chunk => simp_all
    | _ => simp_all

theorem appendAudio_none_iff (audioData : Bytes) (resp : JObject) :
    appendAudio audioData resp = none ↔ fatalRead (.message (some resp)) = true := by
  unfold appendAudio fatalRead
  cases hl : resp.lookup "audio" with
  | none => simp only [hl]; simp
  | some v =>
    simp only [hl]
    cases v with
    | str enc =>
      by_cases he : enc = ""
      · simp [he]
      · cases hd : DecodeString enc <;> simp [he, hd]
    | _ => simp

theorem neFalse_iff (v : JVal) : v.neFalse = true ↔ v ≠ JVal.bool false := by
  cases v with
  | bool b => cases b <;> simp [JVal.neFalse]
  | _ => simp [JVal.neFalse]

theorem finalBranch2_iff (resp : JObject) : finalBranch2 resp = true ↔ FinalSet resp := by
  unfold finalBranch2 FinalSet
  cases h : resp.lookup "final" with
  | none => simp
  | some v => simp [neFalse_iff]

theorem finalSet_eq_finalBranch2 (resp : JObject) : finalSet resp = finalBranch2 resp := by
  unfold finalSet finalBranch2
  cases h : resp.lookup "final" with
  | none => rfl
  | some v =>
    cases v with
    | bool b => cases b <;> rfl
    | _ => rfl

theorem finalBranch1_imp (resp : JObject) (h : finalBranch1 resp = true) :
    finalBranch2 resp = true := by
  unfold finalBranch1 at h
  unfold finalBranch2
  cases hl : resp.lookup "final" with
  | none => simp [hl] at h
  | some v =>
    cases v with
    | bool b => cases b <;> simp_all [JVal.neFalse]
    | _ => simp_all

theorem final_or_eq (resp : JObject) :
    (finalBranch1 resp || finalBranch2 resp) = finalBranch2 resp := by
  cases h1 : finalBranch1 resp with
  | false => simp
  | true => simp [finalBranch1_imp resp h1]

theorem recvIter_message (audioData : Bytes) (resp : JObject) :
    recvIter audioData (.message (some resp)) =
      match appendAudio audioData resp with
      | none => .fatal
      | some buffered => if finalBranch2 resp then .stop buffered else .next buffered := by
  simp only [recvIter]
  cases appendAudio audioData resp with
  | none => rfl
  | some b =>
    have := final_or_eq resp
    cases h1 : finalBranch1 resp <;> cases h2 : finalBranch2 resp <;> simp_all

theorem recvIter_eq_secondOnly (audioData : Bytes) (r : ReadResult) :
    recvIter audioData r = recvIterSecondOnly audioData r := by
  cases r with
  | failed e => cases e with
    | netError t => cases t <;> rfl
    | closeError c => rfl
    | otherError => rfl
  | message m => cases m with
    | none => rfl
    | some resp => rw [recvIter_message]; rfl

theorem recvLoop_eq_secondOnly (audioData : Bytes) (reads : List ReadResult) :
    recvLoop audioData reads = recvLoopSecondOnly audioData reads := by
  induction reads generalizing audioData with
  | nil => rfl
  | cons r rs ih =>
    simp only [recvLoop, recvLoopSecondOnly, recvIter_eq_secondOnly]
    cases recvIterSecondOnly audioData r <;> simp [ih]

theorem recvLoop_returned (audioData out : Bytes) (reads : List ReadResult)
    (h : recvLoop audioData reads = .returned out) :
    (∀ enc ∈ audioStrings reads, (DecodeString enc).isSome = true) ∧
    out = audioData ++
      ((audioStrings reads).map (fun enc => (DecodeString enc).getD [])).flatten := by
  induction reads generalizing audioData with
  | nil => simp [recvLoop] at h
  | cons r rs ih =>
    cases r with
    | failed e =>
      cases e with
      | netError t =>
        cases t <;>
          simp_all [recvLoop, recvIter, audioStrings, throughFirstEnd, endsStream, audioField]
      | closeError c =>
        by_cases hc : c = 1000 <;>
          simp_all [recvLoop, recvIter, audioStrings, throughFirstEnd, endsStream, audioField,
            CloseNormalClosure]
      | otherError => simp [recvLoop, recvIter] at h
    | message m =>
      cases m with
      | none =>
        have h2 : recvLoop audioData rs = .returned out := by simpa [recvLoop, recvIter] using h
        have := ih audioData h2
        simpa [audioStrings, throughFirstEnd, endsStream, audioField] using this
      | some resp =>
        rw [recvLoop, recvIter_message] at h
        cases ha : appendAudio audioData resp with
        | none => simp [ha] at h
        | some b =>
          rw [ha] at h
          have hs := appendAudio_spec audioData b resp ha
          by_cases hf : finalBranch2 resp = true
          · have hout : out = b := by simpa [hf] using h.symm
            subst hout
            have hts : audioStrings (.message (some resp) :: rs) =
                (audioField (.message (some resp))).toList := by
              simp only [audioStrings, throughFirstEnd, endsStream, finalSet_eq_finalBranch2, hf,
                if_true, List.filterMap_cons, List.filterMap_nil]
              cases audioField (.message (some resp)) <;> rfl
            rw [hts]
            rcases hs with ⟨hn, rfl⟩ | ⟨enc, chunk, he, hd, rfl⟩
            · simp [hn]
            · simp [he, hd]
          · have h2 : recvLoop b rs = .returned out := by simpa [hf] using h
            have hts : audioStrings (.message (some resp) :: rs) =
                (audioField (.message (some resp))).toList ++ audioStrings rs := by
              simp only [audioStrings, throughFirstEnd, endsStream, finalSet_eq_finalBranch2, hf,
                List.filterMap_cons]
              cases hq : audioField (.message (some resp)) <;> simp [List.filterMap_cons, hq]
            rw [hts]
            have := ih b h2
            rcases hs with ⟨hn, rfl⟩ | ⟨enc, chunk, he, hd, rfl⟩
            · simpa [hn] using this
            · obtain ⟨h3, h4⟩ := this
              refine ⟨?_, ?_⟩
              · intro e hmem
                simp only [he, Option.toList_some, List.singleton_append, List.mem_cons] at hmem
                rcases hmem with rfl | hmem
                · simp [hd]
                · exact h3 e hmem
              · simp [he, hd, h4]

theorem recvIter_fatal_iff (audioData : Bytes) (r : ReadResult) :
    recvIter audioData r = .fatal ↔ fatalRead r = true := by
  cases r with
  | failed e =>
    cases e with
    | netError t => cases t <;> simp [recvIter, fatalRead]
    | closeError c =>
      by_cases hc : c = 1000 <;> simp [recvIter, fatalRead, CloseNormalClosure, hc]
    | otherError => simp [recvIter, fatalRead]
  | message m =>
    cases m with
    | none => simp [recvIter, fatalRead]
    | some resp =>
      rw [recvIter_message, ← appendAudio_none_iff audioData resp]
      cases appendAudio audioData resp with
      | none => simp
      | some b => by_cases hf : finalBranch2 resp = true <;> simp [hf]

theorem recvIter_stop_imp (audioData b : Bytes) (r : ReadResult)
    (h : recvIter audioData r = .stop b) : endsStream r = true := by
  cases r with
  | failed e =>
    cases e with
    | netError t => cases t <;> simp_all [recvIter, endsStream]
    | closeError c =>
      by_cases hc : c = 1000 <;> simp_all [recvIter, endsStream, CloseNormalClosure]
    | otherError => simp [recvIter] at h
  | message m =>
    cases m with
    | none => simp [recvIter] at h
    | some resp =>
      rw [recvIter_message] at h
      simp only [endsStream, finalSet_eq_finalBranch2]
      cases ha : appendAudio audioData resp with
      | none => simp [ha] at h
      | some b => by_cases hf : finalBranch2 resp = true <;> simp_all

theorem recvIter_next_imp (audioData b : Bytes) (r : ReadResult)
    (h : recvIter audioData r = .next b) : endsStream r = false := by
  cases r with
  | failed e =>
    cases e with
    | netError t => cases t <;> simp_all [recvIter, endsStream]
    | closeError c =>
      by_cases hc : c = 1000 <;> simp_all [recvIter, endsStream, CloseNormalClosure]
    | otherError => simp [recvIter] at h
  | message m =>
    cases m with
    | none => simp [endsStream]
    | some resp =>
      rw [recvIter_message] at h
      simp only [endsStream, finalSet_eq_finalBranch2]
      cases ha : appendAudio audioData resp with
      | none => simp [ha] at h
      | some b => by_cases hf : finalBranch2 resp = true <;> simp_all

theorem recvLoop_fatal_iff (audioData : Bytes) (reads : List ReadResult) :
    recvLoop audioData reads = .fatal ↔
      ∃ pre r post, reads = pre ++ r :: post ∧ (∀ x ∈ pre, endsStream x = false) ∧
        fatalRead r = true := by
  induction reads generalizing audioData with
  | nil => simp [recvLoop]
  | cons r rs ih =>
    rw [recvLoop]
    cases hi : recvIter audioData r with
    | fatal =>
      simp only [true_iff]
      exact ⟨[], r, rs, rfl, by simp, (recvIter_fatal_iff audioData r).1 hi⟩
    | stop b =>
      simp only [false_iff, reduceCtorEq]
      rintro ⟨pre, x, post, hsplit, hpre, hx⟩
      rcases List.cons_eq_append_iff.1 hsplit with ⟨rfl, hcons⟩ | ⟨pre2, rfl, _⟩
      · injection hcons with h1 h2
        subst h1
        rw [← recvIter_fatal_iff audioData, hi] at hx
        exact Iter.noConfusion hx
      · have := hpre r (by simp)
        rw [recvIter_stop_imp audioData b r hi] at this
        exact Bool.noConfusion this
    | next b =>
      simp only
      rw [ih b]
      constructor
      · rintro ⟨pre, x, post, rfl, hpre, hx⟩
        refine ⟨r :: pre, x, post, rfl, ?_, hx⟩
        intro y hy
        rcases List.mem_cons.1 hy with rfl | hy
        · exact recvIter_next_imp audioData b _ hi
        · exact hpre y hy
      · rintro ⟨pre, x, post, hsplit, hpre, hx⟩
        rcases List.cons_eq_append_iff.1 hsplit with ⟨rfl, hcons⟩ | ⟨pre2, rfl, hrs⟩
        · injection hcons with h1 h2
          subst h1
          rw [← recvIter_fatal_iff audioData, hi] at hx
          exact Iter.noConfusion hx
        · exact ⟨pre2, x, post, hrs, fun y hy => hpre y (by simp [hy]), hx⟩

/-! ## Claims on the receive loop -/

/-- C2.  Whenever `receiveAudio` returns on a sequence of read results, every
audio string carried by the results up to and including the first one that ends
the stream is valid base64, and the returned buffer is the concatenation, in
arrival order, of their decodings; nothing after that result contributes. -/
theorem receiveAudio_returns_concatenation (reads : List ReadResult) (audioData : Bytes)
    (h : receiveAudio reads = .returned audioData) :
    (∀ enc ∈ audioStrings reads, (DecodeString enc).isSome = true) ∧
    audioData =
      ((audioStrings reads).map (fun enc => (DecodeString enc).getD [])).flatten := by
  have := recvLoop_returned [] audioData reads h
  simpa using this

/-- Witness for C2: two chunks, the second on the message marked final, and a
further chunk after it that is not read. -/
theorem receiveAudio_returns_concatenation_witness :
    receiveAudio
        [.message (some [("audio", .str "aGk=")]), .message none,
         .message (some [("audio", .str "aA=="), ("final", .num ⟨1⟩)]),
         .message (some [("audio", .str "aGk=")])] = .returned [104, 105, 104] ∧
    [104, 105, 104] =
      ((audioStrings
        [.message (some [("audio", .str "aGk=")]), .message none,
         .message (some [("audio", .str "aA=="), ("final", .num ⟨1⟩)]),
         .message (some [("audio", .str "aGk=")])]).map
        (fun enc => (DecodeString enc).getD [])).flatten :=
  ⟨by decide, (receiveAudio_returns_concatenation _ _ (by decide)).2⟩

/-- C3, counterexample.  The object with audio `?` and final `true` has its
final indicator set, and the object with audio `?` and final `false` has it
false, yet on either message the iteration neither breaks out of the loop nor
continues it: decoding the audio field fails and the process ends. -/
theorem final_with_undecodable_audio_is_fatal :
    FinalSet [("audio", .str "?"), ("final", .bool true)] ∧
    recvIter [] (.message (some [("audio", .str "?"), ("final", .bool true)])) = .fatal ∧
    List.lookup "final" [("audio", JVal.str "?"), ("final", JVal.bool false)]
      = some (.bool false) ∧
    recvIter [] (.message (some [("audio", .str "?"), ("final", .bool false)])) = .fatal :=
  ⟨⟨.bool true, rfl, by simp⟩, by decide, rfl, by decide⟩

/-- C3, amended.  For every parseable inbound object on which the audio step is
not fatal (it leaves the buffer `buffered`), the iteration breaks out of the
loop when the key `final` is present with a value that is not the boolean
`false` (the boolean `true`, a number, a string, an object, an array or null),
and continues the loop when `final` is the boolean `false` or absent. -/
theorem final_decides_iteration (audioData buffered : Bytes) (resp : JObject)
    (h : appendAudio audioData resp = some buffered) :
    (FinalSet resp → recvIter audioData (.message (some resp)) = .stop buffered) ∧
    (resp.lookup "final" = some (.bool false) ∨ resp.lookup "final" = none →
      recvIter audioData (.message (some resp)) = .next buffered) := by
  rw [recvIter_message, h]
  constructor
  · intro hf
    simp [(finalBranch2_iff resp).2 hf]
  · intro hf
    have : finalBranch2 resp = false := by
      unfold finalBranch2
      rcases hf with hf | hf <;> simp [hf, JVal.neFalse]
    simp [this]

/-- Witness for C3: a message with valid audio and `final` set to a string ends
the loop with the chunk appended. -/
theorem final_decides_iteration_witness :
    appendAudio [1] [("audio", .str "aGk="), ("final", .str "no")] = some [1, 104, 105] ∧
    FinalSet [("audio", .str "aGk="), ("final", .str "no")] ∧
    recvIter [1] (.message (some [("audio", .str "aGk="), ("final", .str "no")]))
      = .stop [1, 104, 105] :=
  ⟨by decide, ⟨.str "no", rfl, by simp⟩,
    (final_decides_iteration [1] [1, 104, 105] _ (by decide)).1 ⟨.str "no", rfl, by simp⟩⟩

/-- C4.  `receiveAudio` ends fatally exactly when some read result is fatal (a
failed read that is neither a timeout nor a normal closure, or a parseable
message whose non-empty audio string is not valid base64) and no read result
before it ends the stream.  A read timeout and a normal closure (code 1000)
return the buffer accumulated so far, and an unparseable message is skipped:
the buffer is unchanged and the loop goes on with the next read. -/
theorem receiveAudio_fatal_iff (reads : List ReadResult) :
    (receiveAudio reads = .fatal ↔
      ∃ pre r post, reads = pre ++ r :: post ∧ (∀ x ∈ pre, endsStream x = false) ∧
        fatalRead r = true) ∧
    (∀ audioData rest, recvLoop audioData (.failed (.netError true) :: rest)
      = .returned audioData) ∧
    (∀ audioData rest, recvLoop audioData (.failed (.closeError 1000) :: rest)
      = .returned audioData) ∧
    (∀ audioData rest, recvIter audioData (.message none) = .next audioData ∧
      recvLoop audioData (.message none :: rest) = recvLoop audioData rest) :=
  ⟨recvLoop_fatal_iff [] reads, fun _ _ => rfl, fun _ _ => rfl, fun _ _ => ⟨rfl, rfl⟩⟩

/-- Witness for C4: an unparseable message is skipped, then a message whose
audio string is not valid base64 ends the process; the timeout after it is
never read. -/
theorem receiveAudio_fatal_iff_witness :
    fatalRead (.message (some [("audio", .str "?")])) = true ∧
    receiveAudio
      ([.message none] ++ .message (some [("audio", .str "?")]) ::
        [.failed (.netError true)]) = .fatal :=
  ⟨by decide,
    (receiveAudio_fatal_iff
      ([.message none] ++ .message (some [("audio", .str "?")]) ::
        [.failed (.netError true)])).1.2
      ⟨[.message none], .message (some [("audio", .str "?")]), [.failed (.netError true)],
        rfl, by simp [endsStream], by decide⟩⟩

/-- C10.  The end-of-stream test with both branches decides exactly as its
second branch alone: the second branch holds if and only if the key `final` is
present with a value that is not the boolean `false`, the first branch never
adds a case, and the loop body and the whole loop built from the second branch
only give the same result on every input. -/
theorem final_test_is_second_branch :
    (∀ resp, (finalBranch1 resp || finalBranch2 resp) = finalBranch2 resp) ∧
    (∀ resp, finalBranch2 resp = true ↔ FinalSet resp) ∧
    (∀ audioData r, recvIter audioData r = recvIterSecondOnly audioData r) ∧
    (∀ audioData reads, recvLoop audioData reads = recvLoopSecondOnly audioData reads) :=
  ⟨final_or_eq, finalBranch2_iff, recvIter_eq_secondOnly, recvLoop_eq_secondOnly⟩

/-! ## Lemmas on the driver -/

theorem holds_nil (R : List Event → Event → List Event → Prop) (hist : List Event) :
    Holds R hist [] := by
  intro pre e post h
  simp at h

theorem holds_cons (R : List Event → Event → List Event → Prop) (hist : List Event)
    (x : Event) (t : List Event) :
    Holds R hist (x :: t) ↔ R hist x t ∧ Holds R (hist ++ [x]) t := by
  constructor
  · intro h
    refine ⟨by simpa using h [] x t rfl, ?_⟩
    intro pre e post hsplit
    have := h (x :: pre) e post (by simp [hsplit])
    simpa using this
  · rintro ⟨h1, h2⟩ pre e post hsplit
    rcases List.cons_eq_append_iff.1 hsplit with ⟨rfl, hcons⟩ | ⟨pre2, rfl, ht⟩
    · injection hcons with h3 h4
      subst h3 h4
      simpa using h1
    · have := h2 pre2 e post ht
      simpa using this

theorem openConns_append (hist : List Event) (x : Event) :
    openConns (hist ++ [x]) = connStep (openConns hist) x := by
  simp [openConns, List.foldl_append]

theorem openConns_extend (hist extra : List Event) :
    openConns (hist ++ extra) = extra.foldl connStep (openConns hist) := by
  simp [openConns, List.foldl_append]

theorem inv_notin (hist : List Event) (seg : Nat) (first ticker : Bool)
    (h : Inv hist seg first ticker) (x : Event) (hs : segOf x = some seg)
    (h1 : x ≠ .dial seg true) (h2 : x ≠ .startKeepAlive seg)
    (h3 : ∀ m, x = .send seg m true → m.flush ≠ none) : x ∉ hist := by
  intro hx
  rcases h.2.2.2.2.1 x hx hs with rfl | rfl | ⟨m, rfl, hm⟩
  · exact h1 rfl
  · exact h2 rfl
  · exact h3 m rfl hm

theorem inv_close (hist : List Event) (seg : Nat) (first ticker : Bool)
    (h : Inv hist seg first ticker) : .close seg ∉ hist :=
  inv_notin hist seg first ticker h _ rfl (by simp) (by simp) (by simp)

theorem inv_stop (hist : List Event) (seg : Nat) (first ticker : Bool)
    (h : Inv hist seg first ticker) : .stopKeepAlive seg ∉ hist :=
  inv_notin hist seg first ticker h _ rfl (by simp) (by simp) (by simp)

theorem inv_sending (hist : List Event) (seg : Nat) (first ticker : Bool)
    (h : Inv hist seg first ticker) : Sending seg hist := by
  refine ⟨fun ok => ?_, fun out => ?_, fun d ok => ?_, fun ok => ?_⟩ <;>
    refine inv_notin hist seg first ticker h _ ?_ ?_ ?_ ?_ <;>
    first | rfl | simp [flushMsg]

theorem inv_fresh (hist : List Event) (seg : Nat) (first ticker : Bool)
    (h : Inv hist seg first ticker) (x : Event) (s : Nat) (hs : segOf x = some s)
    (hlt : seg < s) : x ∉ hist := by
  intro hx
  have := h.2.2.2.1 x hx s hs
  omega

theorem inv_started (hist : List Event) (seg : Nat) (first ticker : Bool)
    (h : Inv hist seg first ticker) (s : Nat) (hs : .startKeepAlive s ∈ hist) :
    s = seg ∨ .stopKeepAlive s ∈ hist := by
  have hle := h.2.2.2.1 _ hs s rfl
  rcases Nat.lt_or_eq_of_le hle with hlt | heq
  · exact Or.inr (h.2.2.2.2.2 s hlt hs)
  · exact Or.inl heq

theorem inv_append (hist : List Event) (seg : Nat) (first ticker : Bool) (x : Event)
    (h : Inv hist seg first ticker)
    (hx : x = .startKeepAlive seg ∨ ∃ m, x = .send seg m true ∧ m.flush = none)
    (first2 ticker2 : Bool) (hf : first2 = !ticker2)
    (hk : ticker2 = true ↔ (ticker = true ∨ x = .startKeepAlive seg)) :
    Inv (hist ++ [x]) seg first2 ticker2 := by
  obtain ⟨h1, h2, h3, h4, h5, h6⟩ := h
  have hseg : segOf x = some seg := by
    rcases hx with rfl | ⟨m, rfl, _⟩ <;> rfl
  refine ⟨hf, ?_, ?_, ?_, ?_, ?_⟩
  · rw [hk, h2]
    simp [eq_comm]
  · rw [openConns_append, h3]
    rcases hx with rfl | ⟨m, rfl, _⟩ <;> rfl
  · intro y hy s hs
    simp only [List.mem_append, List.mem_singleton] at hy
    rcases hy with hy | rfl
    · exact h4 y hy s hs
    · rw [hseg] at hs
      injection hs with hs
      omega
  · intro y hy hs
    simp only [List.mem_append, List.mem_singleton] at hy
    rcases hy with hy | rfl
    · exact h5 y hy hs
    · exact Or.inr hx
  · intro s hs hmem
    simp only [List.mem_append, List.mem_singleton] at hmem ⊢
    rcases hmem with hmem | hmem
    · exact Or.inl (h6 s hs hmem)
    · rw [← hmem] at hseg
      simp [segOf] at hseg
      omega

theorem inv_next (hist extra : List Event) (seg : Nat) (first ticker : Bool)
    (h : Inv hist seg first ticker)
    (hseg : ∀ x ∈ extra, x ≠ .dial seg true ∧ ∀ s, x ≠ .startKeepAlive s)
    (hclose : ∀ x ∈ extra, segOf x = some seg)
    (hopen : openConns (hist ++ extra) = [])
    (hstop : ticker = true → .stopKeepAlive seg ∈ extra) :
    Inv (hist ++ extra ++ [.dial (seg + 1) true]) (seg + 1) true false := by
  obtain ⟨h1, h2, h3, h4, h5, h6⟩ := h
  refine ⟨rfl, ?_, ?_, ?_, ?_, ?_⟩
  · simp only [Bool.false_eq_true, false_iff, List.mem_append, List.mem_singleton,
      reduceCtorEq, or_false, not_or]
    exact ⟨fun hm => by have := h4 _ hm (seg + 1) rfl; omega,
      fun hm => (hseg _ hm).2 _ rfl⟩
  · rw [openConns_append, hopen]
    rfl
  · intro y hy s hs
    simp only [List.mem_append, List.mem_singleton] at hy
    rcases hy with (hy | hy) | rfl
    · have := h4 y hy s hs
      omega
    · rw [hclose y hy] at hs
      injection hs with hs
      omega
    · simp [segOf] at hs
      omega
  · intro y hy hs
    simp only [List.mem_append, List.mem_singleton] at hy
    rcases hy with (hy | hy) | rfl
    · have := h4 y hy (seg + 1) hs
      omega
    · rw [hclose y hy] at hs
      injection hs with hs
      omega
    · exact Or.inl rfl
  · intro s hs hmem
    simp only [List.mem_append, List.mem_singleton, reduceCtorEq, or_false] at hmem ⊢
    rcases hmem with hmem | hmem
    · rcases Nat.lt_or_eq_of_le (Nat.lt_succ_iff.1 hs) with hlt | rfl
      · exact Or.inl (h6 s hlt hmem)
      · exact Or.inr (hstop (h2.2 hmem))
    · exact absurd rfl ((hseg _ hmem).2 s)

theorem receivePhase_safe (env : Env) (seg : Nat) (hist next : List Event)
    (hopen : openConns hist = [seg]) (hclose : .close seg ∉ hist)
    (hka : .startKeepAlive seg ∈ hist → .stopKeepAlive seg ∈ hist)
    (hfresh : ∀ ok, .dial (seg + 1) ok ∉ hist)
    (hnext : ∀ audioData, Holds Safe
      (hist ++ [.recv seg (.returned audioData), .close seg, .writeFile seg audioData true,
        .play seg true, .dial (seg + 1) true]) next) :
    Holds Safe hist (receivePhase env seg (openSegment env (seg + 1) next)) := by
  unfold receivePhase
  cases receiveAudio (env.inbound seg) with
  | fatal => simp [holds_cons, holds_nil, Safe, openConns_extend, connStep, hopen, hclose]
  | blocked b => simp [holds_cons, holds_nil, Safe, openConns_extend, connStep, hopen, hclose]
  | returned audioData =>
    have := hnext audioData
    unfold writeAndPlay openSegment
    split_ifs <;>
      simp_all [holds_cons, holds_nil, Safe, openConns_extend, connStep]

theorem initMsg_ne_flush (env : Env) : initMsg env ≠ flushMsg := by
  simp [initMsg, flushMsg]

theorem flush_ne_initMsg (env : Env) : flushMsg ≠ initMsg env := by
  simp [initMsg, flushMsg]

theorem textMsg_ne_flush (line : String) : textMsg line ≠ flushMsg := by
  simp [textMsg, flushMsg]

theorem flush_ne_textMsg (line : String) : flushMsg ≠ textMsg line := by
  simp [textMsg, flushMsg]

theorem receivePhase_head (env : Env) (seg : Nat) (next : List Event) :
    ∃ out post, receivePhase env seg next = .recv seg out :: post := by
  unfold receivePhase
  cases receiveAudio (env.inbound seg) with
  | fatal => exact ⟨_, _, rfl⟩
  | blocked b => exact ⟨_, _, rfl⟩
  | returned audioData => exact ⟨_, _, rfl⟩

theorem sendLoop_safe (env : Env) (lines : List String) (seg : Nat) (first ticker : Bool)
    (n : Nat) (hist : List Event) (h : Inv hist seg first ticker) :
    Holds Safe hist (sendLoop env seg first ticker n lines) := by
  induction lines generalizing seg first ticker n hist with
  | nil =>
    have hc := inv_close _ _ _ _ h
    obtain ⟨hs1, hs2, hs3, hs4⟩ := inv_sending _ _ _ _ h
    have ho := h.2.2.1
    simp [sendLoop, holds_cons, holds_nil, Safe, Sending, openConns_extend, connStep, ho, hc,
      hs1, hs2, hs3, hs4]
  | cons line rest ih =>
    have hc := inv_close _ _ _ _ h
    have hst := inv_stop _ _ _ _ h
    obtain ⟨hs1, hs2, hs3, hs4⟩ := inv_sending _ _ _ _ h
    have ho := h.2.2.1
    have hfr : ∀ ok, .dial (seg + 1) ok ∉ hist := fun ok =>
      inv_fresh _ _ _ _ h _ (seg + 1) rfl (Nat.lt_succ_self seg)
    rw [sendLoop]
    split_ifs with h0 h1 h2 h3 h4 h5 h6 h7 h8
    · simp [holds_cons, holds_nil, Safe, Sending, openConns_extend, connStep, ho, hc,
        hs1, hs2, hs3, hs4]
    · exact ih _ _ _ _ _ h
    · simp [holds_cons, holds_nil, Safe, Sending, openConns_extend, connStep, ho, hc,
        hs1, hs2, hs3, hs4]
    · obtain ⟨out, post, hrp⟩ := receivePhase_head env seg
        (openSegment env (seg + 1) (sendLoop env (seg + 1) true false 0 rest))
      simp only [List.singleton_append, holds_cons]
      refine ⟨?_, ?_, ?_⟩
      · simp [Safe, Sending, openConns_extend, connStep, ho, hc, hs1, hs2, hs3, hs4, hst, hrp]
      · simp [Safe, openConns_extend, connStep, ho]
      · apply receivePhase_safe
        · simp [openConns_extend, connStep, ho]
        · simp [hc]
        · simp
        · simp [hfr]
        · intro audioData
          have hinv := inv_next hist
            [.send seg flushMsg true, .stopKeepAlive seg, .recv seg (.returned audioData),
              .close seg, .writeFile seg audioData true, .play seg true] seg first ticker h
            (by simp) (by simp [segOf]) (by simp [openConns_extend, connStep, ho]) (by simp)
          have := ih (seg + 1) true false 0 _ hinv
          simpa using this
    · have hnk : .startKeepAlive seg ∉ hist := fun hm => h5 (h.2.1.2 hm)
      simp only [List.nil_append, holds_cons]
      refine ⟨?_, ?_⟩
      · simp [Safe, Sending, openConns_extend, connStep, ho, hc, hs1, hs2, hs3, hs4, hnk]
      · apply receivePhase_safe
        · simp [openConns_extend, connStep, ho]
        · simp [hc]
        · simp [hnk]
        · simp [hfr]
        · intro audioData
          have hinv := inv_next hist
            [.send seg flushMsg true, .recv seg (.returned audioData),
              .close seg, .writeFile seg audioData true, .play seg true] seg first ticker h
            (by simp) (by simp [segOf]) (by simp [openConns_extend, connStep, ho])
            (fun ht => absurd ht h5)
          have := ih (seg + 1) true false 0 _ hinv
          simpa using this
    · simp [holds_cons, holds_nil, Safe, Sending, openConns_extend, connStep, ho, hc,
        hs1, hs2, hs3, hs4]
    · have hnk : .startKeepAlive seg ∉ hist := fun hm => by
        have := h.2.1.2 hm
        rw [h.1, this] at h6
        exact Bool.noConfusion h6
      have hold : ∀ s, .startKeepAlive s ∈ hist → .stopKeepAlive s ∈ hist := fun s hs => by
        rcases inv_started _ _ _ _ h s hs with rfl | hs2
        · exact absurd hs hnk
        · exact hs2
      have hi1 := inv_append hist seg first ticker (.startKeepAlive seg) h (Or.inl rfl)
        false true rfl (by simp)
      have hi2 := inv_append _ seg false true (.send seg (initMsg env) true) hi1
        (Or.inr ⟨_, rfl, rfl⟩) false true rfl (by simp)
      have hi3 := inv_append _ seg false true (.send seg (textMsg line) true) hi2
        (Or.inr ⟨_, rfl, rfl⟩) false true rfl (by simp)
      simp only [holds_cons]
      refine ⟨?_, ?_, ?_, ih _ _ _ _ _ hi3⟩
      · simpa [Safe, openConns_extend, connStep, ho, hc] using hold
      · simp [Safe, Sending, openConns_extend, connStep, ho, hc, hs1, hs2, hs3, hs4, initMsg_ne_flush,
          flush_ne_initMsg]
      · simp [Safe, Sending, openConns_extend, connStep, ho, hc, hs1, hs2, hs3, hs4, textMsg_ne_flush,
          flush_ne_textMsg, initMsg_ne_flush, flush_ne_initMsg]
    · have hnk : .startKeepAlive seg ∉ hist := fun hm => by
        have := h.2.1.2 hm
        rw [h.1, this] at h6
        exact Bool.noConfusion h6
      have hold : ∀ s, .startKeepAlive s ∈ hist → .stopKeepAlive s ∈ hist := fun s hs => by
        rcases inv_started _ _ _ _ h s hs with rfl | hs2
        · exact absurd hs hnk
        · exact hs2
      simp only [holds_cons, holds_nil, and_true]
      refine ⟨?_, ?_, ?_, ?_⟩
      · simpa [Safe, openConns_extend, connStep, ho, hc] using hold
      · simp [Safe, Sending, openConns_extend, connStep, ho, hc, hs1, hs2, hs3, hs4, initMsg_ne_flush,
          flush_ne_initMsg]
      · simp [Safe, Sending, openConns_extend, connStep, ho, hc, hs1, hs2, hs3, hs4, textMsg_ne_flush,
          flush_ne_textMsg, initMsg_ne_flush, flush_ne_initMsg]
      · simp [Safe, openConns_extend, connStep, ho]
    · have hnk : .startKeepAlive seg ∉ hist := fun hm => by
        have := h.2.1.2 hm
        rw [h.1, this] at h6
        exact Bool.noConfusion h6
      have hold : ∀ s, .startKeepAlive s ∈ hist → .stopKeepAlive s ∈ hist := fun s hs => by
        rcases inv_started _ _ _ _ h s hs with rfl | hs2
        · exact absurd hs hnk
        · exact hs2
      simp only [holds_cons, holds_nil, and_true]
      refine ⟨?_, ?_, ?_⟩
      · simpa [Safe, openConns_extend, connStep, ho, hc] using hold
      · simp [Safe, Sending, openConns_extend, connStep, ho, hc, hs1, hs2, hs3, hs4, initMsg_ne_flush,
          flush_ne_initMsg]
      · simp [Safe, openConns_extend, connStep, ho]
    · have hi := inv_append hist seg first ticker (.send seg (textMsg line) true) h
        (Or.inr ⟨_, rfl, rfl⟩) first ticker h.1 (by simp)
      simp only [holds_cons]
      refine ⟨?_, ih _ _ _ _ _ hi⟩
      simp [Safe, Sending, openConns_extend, connStep, ho, hc, hs1, hs2, hs3, hs4, textMsg_ne_flush,
        flush_ne_textMsg]
    · simp [holds_cons, holds_nil, Safe, Sending, openConns_extend, connStep, ho, hc,
        hs1, hs2, hs3, hs4, textMsg_ne_flush, flush_ne_textMsg]

theorem main_safe (env : Env) (lines : List String) : Holds Safe [] (main env lines) := by
  unfold main openSegment
  split_ifs with h1 h2
  · simp [holds_cons, holds_nil, Safe, openConns, connStep]
  · have hinv : Inv ([] ++ [.dial 0 true]) 0 true false := by
      refine ⟨rfl, by simp, rfl, ?_, ?_, ?_⟩
      · intro x hx s hs
        simp only [List.nil_append, List.mem_singleton] at hx
        subst hx
        simp [segOf] at hs
        omega
      · intro x hx _
        simp only [List.nil_append, List.mem_singleton] at hx
        exact Or.inl hx
      · intro s hs
        omega
    rw [holds_cons]
    exact ⟨by simp [Safe, openConns, connStep], sendLoop_safe env lines 0 true false 0 _ hinv⟩
  · simp [holds_cons, holds_nil, Safe, openConns, connStep]

theorem okEnv_hi_done_trace :
    main okEnv ["hi", "done"] =
      [.dial 0 true, .startKeepAlive 0, .send 0 (initMsg okEnv) true,
        .send 0 (textMsg "hi") true] ++
      .send 0 flushMsg true ::
        [.stopKeepAlive 0, .recv 0 (.returned [104, 105]), .close 0,
          .writeFile 0 [104, 105] true, .play 0 true, .dial 1 true, .inputClosed 1, .close 1,
          .exit 0] := by
  decide

theorem openConns_initial (lines p q : List Event)
    (hsafe : Holds Safe [] lines) (h : lines = p ++ q) : (openConns p).length ≤ 1 := by
  rcases List.eq_nil_or_concat p with rfl | ⟨p2, x, rfl⟩
  · simp [openConns]
  · have := hsafe p2 x q (by simp [h])
    simpa using this.1

theorem utf8ByteSize_replicate (n : Nat) :
    (String.mk (List.replicate n (Char.ofNat 97))).utf8ByteSize = n := by
  induction n with
  | zero => rfl
  | succ n ih =>
    have h : (String.mk (Char.ofNat 97 :: List.replicate n (Char.ofNat 97))).utf8ByteSize
        = (String.mk (List.replicate n (Char.ofNat 97))).utf8ByteSize + 1 := rfl
    rw [List.replicate_succ, h, ih]

theorem sendLoop_reaches_eof (env : Env) (seg : Nat) (tail : List String) (first ticker : Bool)
    (n : Nat) (hd : "done" ∉ tail) (he : "exit" ∉ tail) (hok : ∀ k, env.sendOk seg k = true) :
    ∃ pre, sendLoop env seg first ticker n tail =
      pre ++ [.inputClosed seg, .close seg, .exit 0] := by
  induction tail generalizing first ticker n with
  | nil => exact ⟨[], rfl⟩
  | cons line rest ih =>
    simp only [List.mem_cons, not_or] at hd he
    have h2 : line ≠ "exit" := fun hx => he.1 hx.symm
    have h3 : line ≠ "done" := fun hx => hd.1 hx.symm
    rw [sendLoop]
    by_cases h0 : MaxScanTokenSize ≤ line.utf8ByteSize
    · simp only [h0, if_true]
      exact ⟨[], rfl⟩
    by_cases h1 : line = ""
    · simp only [h0, if_false]
      simp only [h1, if_true]
      exact ih _ _ _ hd.2 he.2
    · simp only [h0, h1, h2, h3, hok, if_false, if_true]
      cases first with
      | true =>
        obtain ⟨pre, hpre⟩ := ih false true (n + 2) hd.2 he.2
        exact ⟨.startKeepAlive seg :: .send seg (initMsg env) true ::
          .send seg (textMsg line) true :: pre, by simp [hpre]⟩
      | false =>
        obtain ⟨pre, hpre⟩ := ih false ticker (n + 1) hd.2 he.2
        exact ⟨.send seg (textMsg line) true :: pre, by simp [hpre]⟩

theorem sentOn_append (seg : Nat) (a b : List Event) :
    sentOn seg (a ++ b) = sentOn seg a ++ sentOn seg b := by
  induction a with
  | nil => rfl
  | cons x a ih =>
    cases x <;> simp [sentOn, ih]
    split_ifs <;> simp

theorem sentOn_receivePhase (env : Env) (seg k : Nat) (next : List Event)
    (h : sentOn seg next = []) : sentOn seg (receivePhase env k next) = [] := by
  unfold receivePhase writeAndPlay
  cases receiveAudio (env.inbound k) with
  | fatal => rfl
  | blocked b => rfl
  | returned audioData => split_ifs <;> simp [sentOn, h]

theorem sentOn_later (env : Env) (seg : Nat) (lines : List String) (k : Nat)
    (first ticker : Bool) (n : Nat) (hlt : seg < k) :
    sentOn seg (sendLoop env k first ticker n lines) = [] := by
  induction lines generalizing k first ticker n with
  | nil => rfl
  | cons line rest ih =>
    have hne : k ≠ seg := by omega
    have hnext : sentOn seg (receivePhase env k
        (openSegment env (k + 1) (sendLoop env (k + 1) true false 0 rest))) = [] := by
      apply sentOn_receivePhase
      unfold openSegment
      split_ifs
      · simp [sentOn, ih (k + 1) true false 0 (by omega)]
      · rfl
    rw [sendLoop]
    split_ifs
    · rfl
    · exact ih _ _ _ _ hlt
    · rfl
    · simp [sentOn, hne, hnext]
    · simp [sentOn, hne, hnext]
    · simp [sentOn, hne]
    · simp [sentOn, hne, ih _ _ _ _ hlt]
    · simp [sentOn, hne]
    · simp [sentOn, hne]
    · simp [sentOn, hne, ih _ _ _ _ hlt]
    · simp [sentOn, hne]

theorem done_fits : ¬ MaxScanTokenSize ≤ "done".utf8ByteSize := by decide

theorem sentOn_sendLoop (env : Env) (seg : Nat) (ls rest : List String) (first ticker : Bool)
    (n : Nat) (hlen : ∀ line ∈ ls, line.utf8ByteSize < MaxScanTokenSize)
    (hd : "done" ∉ ls) (he : "exit" ∉ ls) (hok : ∀ k, env.sendOk seg k = true) :
    sentOn seg (sendLoop env seg first ticker n (ls ++ "done" :: rest)) =
      (if first = true ∧ ls.filter (fun line => line ≠ "") ≠ [] then [initMsg env] else []) ++
        (ls.filter (fun line => line ≠ "")).map textMsg ++ [flushMsg] := by
  induction ls generalizing first ticker n with
  | nil =>
    have hnext : sentOn seg (receivePhase env seg
        (openSegment env (seg + 1) (sendLoop env (seg + 1) true false 0 rest))) = [] := by
      apply sentOn_receivePhase
      unfold openSegment
      split_ifs
      · simp [sentOn, sentOn_later env seg rest (seg + 1) true false 0 (by omega)]
      · rfl
    simp only [List.nil_append, sendLoop, hok, done_fits, if_false]
    cases ticker <;> simp [sentOn, sentOn_append, hnext]
  | cons line ls ih =>
    simp only [List.mem_cons, not_or] at hd he
    have h2 : line ≠ "exit" := fun hx => he.1 hx.symm
    have h3 : line ≠ "done" := fun hx => hd.1 hx.symm
    have h0 : ¬ MaxScanTokenSize ≤ line.utf8ByteSize :=
      Nat.not_le.2 (hlen line (List.mem_cons_self _ _))
    have hlen2 : ∀ l ∈ ls, l.utf8ByteSize < MaxScanTokenSize :=
      fun l hl => hlen l (List.mem_cons_of_mem _ hl)
    rw [List.cons_append, sendLoop]
    by_cases h1 : line = ""
    · simp only [h0, if_false]
      simp only [h1, if_true]
      rw [ih _ _ _ hlen2 hd.2 he.2]
      simp
    · simp only [h0, h1, h2, h3, hok, if_false, if_true]
      cases first with
      | true =>
        simp only [if_true, sentOn]
        rw [ih _ _ _ hlen2 hd.2 he.2]
        simp [List.filter_cons, h1]
      | false =>
        simp only [Bool.false_eq_true, if_false, sentOn, if_true]
        rw [ih _ _ _ hlen2 hd.2 he.2]
        simp [List.filter_cons, h1]

/-! ## Claims on the driver -/

/-- C5, counterexample.  With the lines `hi`, `done` and every operation
succeeding, the keep-alive task of segment 0 has been started and has not been
stopped when the Flush message is sent: the stop follows the send. -/
theorem flush_sent_while_keepAlive_active :
    main okEnv ["hi", "done"] =
      [.dial 0 true, .startKeepAlive 0, .send 0 (initMsg okEnv) true,
        .send 0 (textMsg "hi") true] ++
      .send 0 flushMsg true ::
        [.stopKeepAlive 0, .recv 0 (.returned [104, 105]), .close 0,
          .writeFile 0 [104, 105] true, .play 0 true, .dial 1 true, .inputClosed 1, .close 1,
          .exit 0] ∧
    Event.startKeepAlive 0 ∈
      [Event.dial 0 true, .startKeepAlive 0, .send 0 (initMsg okEnv) true,
        .send 0 (textMsg "hi") true] ∧
    Event.stopKeepAlive 0 ∉
      [Event.dial 0 true, .startKeepAlive 0, .send 0 (initMsg okEnv) true,
        .send 0 (textMsg "hi") true] := by
  decide

/-- C5, amended.  In every segment in which the keep-alive task was started,
when the Flush message has been sent successfully the task has not been stopped
before that send; the driver stops it directly after the send, and only then
enters the receive loop. -/
theorem keepAlive_stopped_after_flush (env : Env) (lines : List String)
    (pre post : List Event) (s : Nat)
    (h : main env lines = pre ++ .send s flushMsg true :: post)
    (hka : .startKeepAlive s ∈ pre) :
    .stopKeepAlive s ∉ pre ∧
      ∃ out post', post = .stopKeepAlive s :: .recv s out :: post' := by
  have := main_safe env lines pre _ post h
  simp only [Safe, List.nil_append] at this
  simpa [hka] using this.2.2.2.2.2

/-- Witness for C5: the lines `hi`, `done` with every operation succeeding. -/
theorem keepAlive_stopped_after_flush_witness :
    Event.startKeepAlive 0 ∈
      [Event.dial 0 true, .startKeepAlive 0, .send 0 (initMsg okEnv) true,
        .send 0 (textMsg "hi") true] ∧
    Event.stopKeepAlive 0 ∉
      [Event.dial 0 true, .startKeepAlive 0, .send 0 (initMsg okEnv) true,
        .send 0 (textMsg "hi") true] ∧
      ∃ out post', [Event.stopKeepAlive 0, .recv 0 (.returned [104, 105]), .close 0,
          .writeFile 0 [104, 105] true, .play 0 true, .dial 1 true, .inputClosed 1, .close 1,
          .exit 0] = .stopKeepAlive 0 :: .recv 0 out :: post' :=
  ⟨by decide, keepAlive_stopped_after_flush okEnv ["hi", "done"] _ _ 0
    okEnv_hi_done_trace (by decide)⟩

/-- C1, counterexample.  A console line of 65536 bytes, which is neither `done`
nor `exit`, followed by the line `done`, with every send succeeding: the
scanner does not return the line, the driver closes the connection and exits,
and no message at all is sent on the connection, whereas the prescribed
sequence is Init, the Text of the line, Flush. -/
theorem long_line_ends_segment_without_messages :
    "done" ∉ [longLine] ∧ "exit" ∉ [longLine] ∧ (∀ k, okEnv.sendOk 0 k = true) ∧
    sendLoop okEnv 0 true false 0 ([longLine] ++ "done" :: []) =
      [.inputClosed 0, .close 0, .exit 0] ∧
    sentOn 0 (sendLoop okEnv 0 true false 0 ([longLine] ++ "done" :: [])) = [] ∧
    specMessages okEnv [longLine] = [initMsg okEnv, textMsg longLine, flushMsg] := by
  have hsize : longLine.utf8ByteSize = 65536 := utf8ByteSize_replicate 65536
  have hne : ∀ t : String, t.utf8ByteSize < 65536 → t ≠ longLine := by
    intro t ht heq
    rw [heq, hsize] at ht
    exact Nat.lt_irrefl _ ht
  have hrun : sendLoop okEnv 0 true false 0 ([longLine] ++ "done" :: []) =
      [.inputClosed 0, .close 0, .exit 0] := by
    simp [sendLoop, MaxScanTokenSize, hsize]
  refine ⟨?_, ?_, fun _ => rfl, hrun, ?_, ?_⟩
  · simpa using hne "done" (by decide)
  · simpa using hne "exit" (by decide)
  · rw [hrun]
    rfl
  · have : longLine ≠ "" := fun h => hne "" (by decide) h.symm
    simp [specMessages, this]

/-- C1, amended.  For console lines `ls`, each shorter than 65536 bytes, that
contain neither `done` nor `exit`, followed by the line `done`, and with every
send on the connection succeeding, the messages the driver sends on the
connection of a fresh segment are exactly the prescribed sequence: nothing for
an empty line; if some line is non-empty, one Init message and then one Text
message per non-empty line in entry order; the Flush message last (alone when
no line is non-empty). -/
theorem segment_message_sequence (env : Env) (seg : Nat) (ls rest : List String)
    (hlen : ∀ line ∈ ls, line.utf8ByteSize < MaxScanTokenSize)
    (hd : "done" ∉ ls) (he : "exit" ∉ ls) (hok : ∀ k, env.sendOk seg k = true) :
    sentOn seg (sendLoop env seg true false 0 (ls ++ "done" :: rest)) =
      specMessages env ls := by
  rw [sentOn_sendLoop env seg ls rest true false 0 hlen hd he hok]
  unfold specMessages
  dsimp only
  generalize ls.filter (fun line => line ≠ "") = texts
  cases texts <;> simp

/-- Witness for C1: the lines `hi`, an empty line, `yo`, then `done`. -/
theorem segment_message_sequence_witness :
    (∀ line ∈ ["hi", "", "yo"], line.utf8ByteSize < MaxScanTokenSize) ∧
    "done" ∉ ["hi", "", "yo"] ∧ "exit" ∉ ["hi", "", "yo"] ∧
    (∀ k, okEnv.sendOk 0 k = true) ∧
    sentOn 0 (sendLoop okEnv 0 true false 0 (["hi", "", "yo"] ++ "done" :: [])) =
      [initMsg okEnv, textMsg "hi", textMsg "yo", flushMsg] :=
  ⟨by decide, by decide, by decide, fun _ => rfl,
    segment_message_sequence okEnv 0 ["hi", "", "yo"] [] (by decide) (by decide) (by decide)
      (fun _ => rfl)⟩

/-- C6, counterexample.  With the lines `hi`, `exit` the keep-alive task of
segment 0 is started, and the connection is closed without the task having
been signaled to stop. -/
theorem exit_closes_with_keepAlive_running :
    main okEnv ["hi", "exit"] =
      [.dial 0 true, .startKeepAlive 0, .send 0 (initMsg okEnv) true,
        .send 0 (textMsg "hi") true] ++ .close 0 :: [.exit 0] ∧
    Event.startKeepAlive 0 ∈
      [Event.dial 0 true, .startKeepAlive 0, .send 0 (initMsg okEnv) true,
        .send 0 (textMsg "hi") true] ∧
    Event.stopKeepAlive 0 ∉
      [Event.dial 0 true, .startKeepAlive 0, .send 0 (initMsg okEnv) true,
        .send 0 (textMsg "hi") true] := by
  decide

/-- C6, amended.  When the driver closes a segment's connection after the
receive loop of that segment (the path through `done`), a keep-alive task that
was started for the segment has been signaled to stop before the close; and
whenever a keep-alive task is started, every task started earlier has been
signaled to stop. -/
theorem keepAlive_stopped_before_close_after_receive (env : Env) (lines : List String) :
    (∀ pre post s, main env lines = pre ++ .close s :: post →
      (∃ out, .recv s out ∈ pre) → .startKeepAlive s ∈ pre → .stopKeepAlive s ∈ pre) ∧
    (∀ pre post s, main env lines = pre ++ .startKeepAlive s :: post →
      ∀ s', .startKeepAlive s' ∈ pre → .stopKeepAlive s' ∈ pre) := by
  constructor
  · intro pre post s h hrecv hka
    have := main_safe env lines pre _ post h
    simp only [Safe, List.nil_append] at this
    exact this.2.2.2 hrecv hka
  · intro pre post s h
    have := main_safe env lines pre _ post h
    simp only [Safe, List.nil_append] at this
    exact this.2.2.2

/-- Witness for C6: the lines `hi`, `done` with every operation succeeding. -/
theorem keepAlive_stopped_before_close_after_receive_witness :
    main okEnv ["hi", "done"] =
      [.dial 0 true, .startKeepAlive 0, .send 0 (initMsg okEnv) true,
        .send 0 (textMsg "hi") true, .send 0 flushMsg true, .stopKeepAlive 0,
        .recv 0 (.returned [104, 105])] ++ .close 0 ::
      [.writeFile 0 [104, 105] true, .play 0 true, .dial 1 true, .inputClosed 1, .close 1,
        .exit 0] ∧
    Event.stopKeepAlive 0 ∈
      [Event.dial 0 true, .startKeepAlive 0, .send 0 (initMsg okEnv) true,
        .send 0 (textMsg "hi") true, .send 0 flushMsg true, .stopKeepAlive 0,
        .recv 0 (.returned [104, 105])] :=
  ⟨by decide, (keepAlive_stopped_before_close_after_receive okEnv ["hi", "done"]).1
    [.dial 0 true, .startKeepAlive 0, .send 0 (initMsg okEnv) true,
      .send 0 (textMsg "hi") true, .send 0 flushMsg true, .stopKeepAlive 0,
      .recv 0 (.returned [104, 105])]
    [.writeFile 0 [104, 105] true, .play 0 true, .dial 1 true, .inputClosed 1, .close 1,
      .exit 0] 0 (by decide) ⟨.returned [104, 105], by decide⟩ (by decide)⟩

/-- C7.  Whenever a send of the driver fails (whatever the message: Init, Text
or Flush), the only action that follows is the exit of the process with status
1: no further message is sent, and for the segment of the failed send the
receive loop is never entered, the file is never written and the player is
never run, neither before nor after the failed send. -/
theorem send_failure_is_fatal (env : Env) (lines : List String) (pre post : List Event)
    (s : Nat) (m : OutMsg) (h : main env lines = pre ++ .send s m false :: post) :
    post = [.exit 1] ∧ (∀ out, .recv s out ∉ pre) ∧
      (∀ audioData ok, .writeFile s audioData ok ∉ pre) ∧ (∀ ok, .play s ok ∉ pre) := by
  have := main_safe env lines pre _ post h
  simp only [Safe, Sending, List.nil_append] at this
  exact ⟨this.2.2.2.2.1 trivial, this.2.2.2.1.2⟩

/-- Witness for C7: the Text send of the line `hi` fails. -/
theorem send_failure_is_fatal_witness :
    main failEnv ["hi", "done"] =
      [.dial 0 true, .startKeepAlive 0, .send 0 (initMsg failEnv) true] ++
        .send 0 (textMsg "hi") false :: [.exit 1] ∧
    [Event.exit 1] = [.exit 1] ∧
      (∀ out, .recv 0 out ∉
        [Event.dial 0 true, .startKeepAlive 0, .send 0 (initMsg failEnv) true]) ∧
      (∀ audioData ok, .writeFile 0 audioData ok ∉
        [Event.dial 0 true, .startKeepAlive 0, .send 0 (initMsg failEnv) true]) ∧
      (∀ ok, .play 0 ok ∉
        [Event.dial 0 true, .startKeepAlive 0, .send 0 (initMsg failEnv) true]) :=
  ⟨by decide, send_failure_is_fatal failEnv ["hi", "done"]
    [.dial 0 true, .startKeepAlive 0, .send 0 (initMsg failEnv) true] [.exit 1] 0
    (textMsg "hi") (by decide)⟩

/-- C8.  Whenever the driver finds the console input closed in a segment, the
actions that follow are exactly the close of that segment's connection and the
exit of the process, and before that point no Flush was sent, the receive loop
was not entered, the file was not written and the player was not run for the
segment.  The driver does reach that point: from any state of the inner loop,
on remaining lines that contain neither `done` nor `exit` and with every send
succeeding, the trace ends with input closed, close, exit. -/
theorem input_closed_ends_without_playback (env : Env) :
    (∀ lines pre post s, main env lines = pre ++ .inputClosed s :: post →
      post = [.close s, .exit 0] ∧ (∀ ok, .send s flushMsg ok ∉ pre) ∧
        (∀ out, .recv s out ∉ pre) ∧ (∀ audioData ok, .writeFile s audioData ok ∉ pre) ∧
        (∀ ok, .play s ok ∉ pre)) ∧
    (∀ seg first ticker n tail, "done" ∉ tail → "exit" ∉ tail →
      (∀ k, env.sendOk seg k = true) →
      ∃ pre, sendLoop env seg first ticker n tail =
        pre ++ [.inputClosed seg, .close seg, .exit 0]) := by
  constructor
  · intro lines pre post s h
    have := main_safe env lines pre _ post h
    simp only [Safe, Sending, List.nil_append] at this
    exact ⟨this.2.2, this.2.1⟩
  · intro seg first ticker n tail hd he hok
    exact sendLoop_reaches_eof env seg tail first ticker n hd he hok

/-- Witness for C8: the console input ends after the line `hi`. -/
theorem input_closed_ends_without_playback_witness :
    main okEnv ["hi"] =
      [.dial 0 true, .startKeepAlive 0, .send 0 (initMsg okEnv) true,
        .send 0 (textMsg "hi") true] ++ .inputClosed 0 :: [.close 0, .exit 0] ∧
    [Event.close 0, .exit 0] = [.close 0, .exit 0] ∧
      (∀ ok, .send 0 flushMsg ok ∉
        [Event.dial 0 true, .startKeepAlive 0, .send 0 (initMsg okEnv) true,
          .send 0 (textMsg "hi") true]) ∧
      (∀ out, .recv 0 out ∉
        [Event.dial 0 true, .startKeepAlive 0, .send 0 (initMsg okEnv) true,
          .send 0 (textMsg "hi") true]) ∧
      (∀ audioData ok, .writeFile 0 audioData ok ∉
        [Event.dial 0 true, .startKeepAlive 0, .send 0 (initMsg okEnv) true,
          .send 0 (textMsg "hi") true]) ∧
      (∀ ok, .play 0 ok ∉
        [Event.dial 0 true, .startKeepAlive 0, .send 0 (initMsg okEnv) true,
          .send 0 (textMsg "hi") true]) :=
  ⟨by decide, (input_closed_ends_without_playback okEnv).1 ["hi"]
    [.dial 0 true, .startKeepAlive 0, .send 0 (initMsg okEnv) true, .send 0 (textMsg "hi") true]
    [.close 0, .exit 0] 0 (by decide)⟩

/-- C9.  After every prefix of the driver's actions at most one connection is
open.  A dial happens only when no connection is open and the segment was not
dialed before; every send, keep-alive start, receive and close on a segment's
connection happens while exactly that connection is open and before any close
of it; and the file is written and the player run only after the segment's
connection was closed, with no connection open. -/
theorem one_connection_at_a_time (env : Env) (lines : List String) :
    (∀ p q, main env lines = p ++ q → (openConns p).length ≤ 1) ∧
    (∀ pre e post, main env lines = pre ++ e :: post →
      (∀ s ok, e = .dial s ok → (∀ ok2, .dial s ok2 ∉ pre) ∧ openConns pre = []) ∧
      (∀ s m ok, e = .send s m ok → openConns pre = [s] ∧ .close s ∉ pre) ∧
      (∀ s, e = .startKeepAlive s → openConns pre = [s] ∧ .close s ∉ pre) ∧
      (∀ s out, e = .recv s out → openConns pre = [s] ∧ .close s ∉ pre) ∧
      (∀ s, e = .close s → openConns pre = [s] ∧ .close s ∉ pre) ∧
      (∀ s audioData ok, e = .writeFile s audioData ok →
        .close s ∈ pre ∧ openConns pre = []) ∧
      (∀ s ok, e = .play s ok → .close s ∈ pre ∧ openConns pre = [])) := by
  constructor
  · intro p q h
    exact openConns_initial (main env lines) p q (main_safe env lines) h
  · intro pre e post h
    have := main_safe env lines pre e post h
    simp only [List.nil_append] at this
    cases e <;> simp_all [Safe]

/-- Witness for C9: with the lines `hi`, `done`, after the close of segment 0
no connection is open, and the dial of segment 1 happens in that state. -/
theorem one_connection_at_a_time_witness :
    main okEnv ["hi", "done"] =
      [.dial 0 true, .startKeepAlive 0, .send 0 (initMsg okEnv) true,
        .send 0 (textMsg "hi") true, .send 0 flushMsg true, .stopKeepAlive 0,
        .recv 0 (.returned [104, 105]), .close 0, .writeFile 0 [104, 105] true,
        .play 0 true] ++ .dial 1 true :: [.inputClosed 1, .close 1, .exit 0] ∧
    openConns
      [.dial 0 true, .startKeepAlive 0, .send 0 (initMsg okEnv) true,
        .send 0 (textMsg "hi") true, .send 0 flushMsg true, .stopKeepAlive 0,
        .recv 0 (.returned [104, 105]), .close 0, .writeFile 0 [104, 105] true,
        .play 0 true] = [] :=
  ⟨by decide,
    (((one_connection_at_a_time okEnv ["hi", "done"]).2
      [.dial 0 true, .startKeepAlive 0, .send 0 (initMsg okEnv) true,
        .send 0 (textMsg "hi") true, .send 0 flushMsg true, .stopKeepAlive 0,
        .recv 0 (.returned [104, 105]), .close 0, .writeFile 0 [104, 105] true,
        .play 0 true] (.dial 1 true) [.inputClosed 1, .close 1, .exit 0]
      (by decide)).1 1 true rfl).2⟩

end ElevenWss
